import Mathlib

/-!
Verification of the gym-occupancy data-preparation pipeline
(`utils.prep_data` and `utils.prep_data_stats`).

The pipeline is shallowly embedded over explicit in-memory tables:

* a raw occupancy record carries a timestamp (minutes since 1970-01-01
  00:00, minute granularity, matching the pandas `datetime64` column),
  a country, a facility ("gym") identifier and a rational occupancy value;
* `prep_data` filters the raw table around a match date and numbers the
  retained weeks using ISO-8601 week-of-year arithmetic, exactly as
  `DataFrame.dt.isocalendar().week` does;
* `prep_data_stats` pivots the windowed table to wide format, computes the
  baseline column `w1-6`, optionally normalises per country, and either
  reads off the occupancy at kick-off time or integrates the daily curve
  with Simpson's rule (mirroring `scipy.integrate.simps`).

Missing values (pandas `NaN`) are modelled with `Option ℚ`; arithmetic on
them propagates `none` exactly where the float computation would propagate
`NaN`.  Exceptions raised by pandas reshaping, and the `return None` taken
on an unrecognised metric, are modelled by an explicit result type.
-/

namespace GymOccupancy

/-! ### Calendar arithmetic

Timestamps are minutes since 1970-01-01 00:00.  `pandas` exposes the
day-of-week (Monday = 0) and the ISO-8601 week-of-year of each timestamp;
both are genuine functions of the day number, implemented here with the
standard civil-calendar algorithms. -/

/-- Day count of a civil date (days since 1970-01-01, Gregorian calendar). -/
def daysFromCivil (y m d : Int) : Int :=
  let y := y - (if m ≤ 2 then 1 else 0)
  let era := y.ediv 400
  let yoe := y - era * 400
  let mp := (m + 9).emod 12
  let doy := (153 * mp + 2).ediv 5 + d - 1
  let doe := yoe * 365 + yoe.ediv 4 - yoe.ediv 100 + doy
  era * 146097 + doe - 719468

/-- Civil date (year, month, day) of a day count. -/
def civilFromDays (z0 : Int) : Int × Int × Int :=
  let z := z0 + 719468
  let era := z.ediv 146097
  let doe := z - era * 146097
  let yoe := (doe - doe.ediv 1460 + doe.ediv 36524 - doe.ediv 146096).ediv 365
  let y := yoe + era * 400
  let doy := doe - (365 * yoe + yoe.ediv 4 - yoe.ediv 100)
  let mp := (5 * doy + 2).ediv 153
  let d := doy - (153 * mp + 2).ediv 5 + 1
  let m := mp + (if mp < 10 then 3 else -9)
  (y + (if m ≤ 2 then 1 else 0), m, d)

/-- Day-of-week with Monday = 0 (the `pandas`/`datetime.weekday` convention);
1970-01-01 was a Thursday. -/
def dayOfWeek (z : Int) : Int := (z + 3).emod 7

/-- Number of ISO-8601 weeks in a year (52 or 53). -/
def isoWeeksInYear (y : Int) : Int :=
  let p : Int → Int := fun yy => (yy + yy.ediv 4 - yy.ediv 100 + yy.ediv 400).emod 7
  52 + (if p y = 4 ∨ p (y - 1) = 3 then 1 else 0)

/-- ISO-8601 week-of-year of a day count, as `Series.dt.isocalendar().week`
computes it. -/
def isoWeek (z : Int) : Int :=
  let y := (civilFromDays z).1
  let doy := z - daysFromCivil y 1 1 + 1
  let dow := dayOfWeek z + 1
  let w := (doy - dow + 10).ediv 7
  if w < 1 then isoWeeksInYear (y - 1)
  else if w > isoWeeksInYear y then 1
  else w

example : daysFromCivil 1970 1 1 = 0 := by decide
example : civilFromDays 18800 = (2021, 6, 22) := by decide
example : dayOfWeek (daysFromCivil 2021 6 18) = 4 := by decide
example : isoWeek (daysFromCivil 2021 6 18) = 24 := by decide
example : isoWeek (daysFromCivil 2021 1 1) = 53 := by decide
example : isoWeek (daysFromCivil 2021 1 8) = 1 := by decide
example : isoWeek (daysFromCivil 2020 12 4) = 49 := by decide
example : isoWeek (daysFromCivil 2020 12 31) = 53 := by decide
example : isoWeek (daysFromCivil 2021 1 4) = 1 := by decide

/-! ### Data model -/

/-- One raw occupancy record: a row of the raw gym-data `DataFrame`.
`datetime` is minutes since 1970-01-01 00:00 (minute granularity). -/
structure RawRecord where
  datetime : Nat
  country : String
  gym : String
  occupancy : ℚ
deriving DecidableEq, Repr

/-- A windowed record: a raw record together with the `week` column added by
`prep_data` (1-6 = baseline weeks, 7 = match day). -/
structure WindowedRecord where
  datetime : Nat
  country : String
  gym : String
  occupancy : ℚ
  week : Int
deriving DecidableEq, Repr

/-- Day number of a record's timestamp. -/
def recordDay (r : RawRecord) : Int := (r.datetime : Int).ediv 1440

/-! ### Window Selector (`prep_data`)

`prep_data(df_raw, match_date)` takes the raw table and the match date
(`YYYY-MM-DD`, i.e. a midnight timestamp; modelled as a day number). -/

/-- Line 30: `df_raw[df_raw["datetime"] - pd.to_timedelta(1, unit="d") <= match_date]`.
The match-date string compares as the midnight timestamp of that day. -/
def filterStep (df_raw : List RawRecord) (match_date : Int) : List RawRecord :=
  df_raw.filter (fun r => decide ((r.datetime : Int) - 1440 ≤ match_date * 1440))

/-- Lines 33-34: retain only records on the same day of week as the match
date. -/
def prepFiltered (df_raw : List RawRecord) (match_date : Int) : List RawRecord :=
  (filterStep df_raw match_date).filter
    (fun r => decide (dayOfWeek (recordDay r) = dayOfWeek match_date))

/-- `Series.min()` of a column (`none` on an empty column, where pandas
yields `NaN`). -/
def foldMin : List Int → Option Int
  | [] => none
  | w :: ws => some (ws.foldl min w)

/-- `Series.max()` of a column (`none` on an empty column). -/
def foldMax : List Int → Option Int
  | [] => none
  | w :: ws => some (ws.foldl max w)

/-- Lines 30-43 of `utils.py`: filter the raw data down to the match date's
weekday (up to one day past the match date), number each retained ISO week
starting from 1, and apply the `max == 8` off-by-one correction. -/
def prep_data (df_raw : List RawRecord) (match_date : Int) : List WindowedRecord :=
  let df := prepFiltered df_raw match_date
  match foldMin (df.map (fun r => isoWeek (recordDay r))) with
  | none => []
  | some wmin =>
    let dfw : List WindowedRecord := df.map (fun r =>
      ⟨r.datetime, r.country, r.gym, r.occupancy, isoWeek (recordDay r) - wmin + 1⟩)
    match foldMax (dfw.map (fun r => r.week)) with
    | none => []
    | some wmax =>
      if wmax = 8 then
        (dfw.map (fun r => { r with week := r.week - 1 })).filter (fun r => decide (r.week > 0))
      else dfw

/-! ### String ordering

pandas sorts pivot indices and `sort_values` columns; for string keys this
is code-point lexicographic order.  We implement it as a boolean strict
comparison on the underlying character lists. -/

/-- Lexicographic strict order on lists over a linear order. -/
def lexLt {α : Type} [LinearOrder α] : List α → List α → Bool
  | _, [] => false
  | [], _ :: _ => true
  | a :: as, b :: bs => if a < b then true else if b < a then false else lexLt as bs

/-- Code-point lexicographic strict order on strings (Python's `<`). -/
def strLt (a b : String) : Bool := lexLt a.data b.data

/-! ### Metric Aggregator (`prep_data_stats`): data model -/

/-- A windowed record after `dfw["time"] = dfw["datetime"].dt.time` and
`dfw.drop("datetime", ...)`: the timestamp is reduced to its time of day
(minutes after midnight). -/
structure TimeRecord where
  time : Nat
  country : String
  gym : String
  occupancy : ℚ
  week : Int
deriving DecidableEq, Repr

/-- Lines 77-79 of `utils.py`, applied to one record. -/
def toTimeRecord (r : WindowedRecord) : TimeRecord :=
  ⟨r.datetime % 1440, r.country, r.gym, r.occupancy, r.week⟩

/-- A row of the kick-off branch's pivoted table after the column renaming:
one row per (country, gym), with the occupancy of each of the seven week
columns (`none` = pandas `NaN` for a missing cell). -/
structure Pivot7 where
  country : String
  gym : String
  w1 : Option ℚ
  w2 : Option ℚ
  w3 : Option ℚ
  w4 : Option ℚ
  w5 : Option ℚ
  w6 : Option ℚ
  w7 : Option ℚ
deriving DecidableEq, Repr

/-- A row of the AUC branch's pivoted table: one row per
(country, gym, time-of-day). -/
structure AucPivot7 where
  country : String
  gym : String
  time : Nat
  w1 : Option ℚ
  w2 : Option ℚ
  w3 : Option ℚ
  w4 : Option ℚ
  w5 : Option ℚ
  w6 : Option ℚ
  w7 : Option ℚ
deriving DecidableEq, Repr

/-- A kick-off branch row reduced to the columns
`["country", "gym", "w1-6", "w7"]`. -/
structure KickSel where
  country : String
  gym : String
  w16 : Option ℚ
  w7 : Option ℚ
deriving DecidableEq, Repr

/-- An AUC branch row reduced to the columns
`["country", "gym", "time", "w1-6", "w7"]`. -/
structure AucSel where
  country : String
  gym : String
  time : Nat
  w16 : Option ℚ
  w7 : Option ℚ
deriving DecidableEq, Repr

/-- A long-format result row.  `week` is one of the labels `"w1-6"`/`"w7"`;
`value` is the melted column (named `occupancy` in the kick-off branch and
`auc` in the AUC branch). -/
structure LongRow where
  country : String
  gym : String
  week : String
  value : Option ℚ
deriving DecidableEq, Repr

/-- A melted AUC-branch row before the groupby: still carries the
time-of-day. -/
structure AucLong where
  country : String
  gym : String
  time : Nat
  week : String
  value : Option ℚ
deriving DecidableEq, Repr

/-- Observable outcome of calling `prep_data_stats`: a returned table, the
`return None` taken after the invalid-metric `print`, or a propagated
pandas/Python exception. -/
inductive PyResult where
  | ok : List LongRow → PyResult
  | noneReturn : PyResult
  | exn : String → PyResult
deriving DecidableEq, Repr

/-! ### Missing-value (`NaN`) arithmetic -/

/-- Addition propagating missing values, as float `NaN` does. -/
def oadd : Option ℚ → Option ℚ → Option ℚ
  | some a, some b => some (a + b)
  | _, _ => none

/-- Division propagating missing values, as float `NaN` does.  (Division by
a present zero is `0` in `ℚ` where float arithmetic yields `inf`/`NaN`;
both differ from every finite nonzero value.) -/
def odiv : Option ℚ → Option ℚ → Option ℚ
  | some a, some b => some (a / b)
  | _, _ => none

/-- `Series.mean()` with pandas `skipna` semantics: the mean of the present
values, or `none` when every value is missing. -/
def meanOpt (l : List (Option ℚ)) : Option ℚ :=
  let v := l.filterMap id
  if v.isEmpty then none else some (v.sum / (v.length : ℚ))

/-! ### Pivoting -/

/-- Strict (country, gym) index order used by `pivot` for the kick-off
branch. -/
def keyLt2 (a b : String × String) : Bool :=
  strLt a.1 b.1 || (a.1 == b.1 && strLt a.2 b.2)

/-- Strict (country, gym, time) index order used by `pivot` for the AUC
branch. -/
def keyLt3 (a b : String × String × Nat) : Bool :=
  strLt a.1 b.1 || (a.1 == b.1 &&
    (strLt a.2.1 b.2.1 || (a.2.1 == b.2.1 && decide (a.2.2 < b.2.2))))

/-- Strict (country, gym, week-label) group-key order used by `groupby` in
the AUC branch. -/
def keyLtG (a b : String × String × String) : Bool :=
  strLt a.1 b.1 || (a.1 == b.1 &&
    (strLt a.2.1 b.2.1 || (a.2.1 == b.2.1 && strLt a.2.2 b.2.2)))

/-- The sorted distinct values of a column, as a pandas pivot index or
group-key index: deduplicate, then sort ascending by `lt`. -/
def sortedDistinct {α : Type} [DecidableEq α] (lt : α → α → Bool) (l : List α) : List α :=
  (l.dedup).insertionSort (fun a b => lt b a = false)

/-- One cell of the kick-off pivot: the occupancy of the unique record with
the given index key and week column (`none` when absent; uniqueness is
guaranteed by the duplicate check in `kickPivot`). -/
def pivotCell (rows : List TimeRecord) (c g : String) (w : Int) : Option ℚ :=
  ((rows.filter (fun r => r.country == c && r.gym == g && r.week == w)).head?).map
    (fun r => r.occupancy)

/-- Lines 82-95: `pivot(index=["country", "gym"], columns="week",
values="occupancy")` followed by the fixed nine-name column assignment.
`pivot` raises on duplicate (index, column) pairs, and the column
assignment raises unless the pivot produced exactly seven week columns. -/
def kickPivot (rows : List TimeRecord) : Except String (List Pivot7) :=
  if (rows.map (fun r => (r.country, r.gym, r.week))).Nodup then
    let weeks := sortedDistinct (fun a b => decide (a < b)) (rows.map (fun r => r.week))
    if weeks.length = 7 then
      let keys := sortedDistinct keyLt2 (rows.map (fun r => (r.country, r.gym)))
      Except.ok (keys.map (fun k =>
        ⟨k.1, k.2,
          pivotCell rows k.1 k.2 (weeks.getD 0 0), pivotCell rows k.1 k.2 (weeks.getD 1 0),
          pivotCell rows k.1 k.2 (weeks.getD 2 0), pivotCell rows k.1 k.2 (weeks.getD 3 0),
          pivotCell rows k.1 k.2 (weeks.getD 4 0), pivotCell rows k.1 k.2 (weeks.getD 5 0),
          pivotCell rows k.1 k.2 (weeks.getD 6 0)⟩))
    else Except.error "ValueError: Length mismatch: Expected axis has fewer or more elements than the 9 column names given"
  else Except.error "ValueError: Index contains duplicate entries, cannot reshape"

/-- One cell of the AUC pivot. -/
def aucPivotCell (rows : List TimeRecord) (c g : String) (t : Nat) (w : Int) : Option ℚ :=
  ((rows.filter (fun r => r.country == c && r.gym == g && r.time == t && r.week == w)).head?).map
    (fun r => r.occupancy)

/-- Lines 109-123: `pivot(index=["country", "gym", "time"], columns="week",
values="occupancy")` followed by the fixed ten-name column assignment. -/
def aucPivot (rows : List TimeRecord) : Except String (List AucPivot7) :=
  if (rows.map (fun r => (r.country, r.gym, r.time, r.week))).Nodup then
    let weeks := sortedDistinct (fun a b => decide (a < b)) (rows.map (fun r => r.week))
    if weeks.length = 7 then
      let keys := sortedDistinct keyLt3 (rows.map (fun r => (r.country, r.gym, r.time)))
      Except.ok (keys.map (fun k =>
        ⟨k.1, k.2.1, k.2.2,
          aucPivotCell rows k.1 k.2.1 k.2.2 (weeks.getD 0 0),
          aucPivotCell rows k.1 k.2.1 k.2.2 (weeks.getD 1 0),
          aucPivotCell rows k.1 k.2.1 k.2.2 (weeks.getD 2 0),
          aucPivotCell rows k.1 k.2.1 k.2.2 (weeks.getD 3 0),
          aucPivotCell rows k.1 k.2.1 k.2.2 (weeks.getD 4 0),
          aucPivotCell rows k.1 k.2.1 k.2.2 (weeks.getD 5 0),
          aucPivotCell rows k.1 k.2.1 k.2.2 (weeks.getD 6 0)⟩))
    else Except.error "ValueError: Length mismatch: Expected axis has fewer or more elements than the 10 column names given"
  else Except.error "ValueError: Index contains duplicate entries, cannot reshape"

/-! ### Baseline column, normalisation, melt -/

/-- Line 96/124: `dfw["w1-6"] = <week columns 1..6>.mean(axis=1)`. -/
def kickW16 (r : Pivot7) : Option ℚ := meanOpt [r.w1, r.w2, r.w3, r.w4, r.w5, r.w6]

/-- Baseline column for an AUC-branch row. -/
def aucW16 (r : AucPivot7) : Option ℚ := meanOpt [r.w1, r.w2, r.w3, r.w4, r.w5, r.w6]

/-- Kick-off branch rows with the derived `w1-6` column. -/
def kickSelect (t : List Pivot7) : List KickSel :=
  t.map (fun r => ⟨r.country, r.gym, kickW16 r, r.w7⟩)

/-- AUC branch rows with the derived `w1-6` column. -/
def aucSelect (t : List AucPivot7) : List AucSel :=
  t.map (fun r => ⟨r.country, r.gym, r.time, aucW16 r, r.w7⟩)

/-- Line 98/126: `dfw.query("country == <c>")["w1-6"].mean()`. -/
def countryMeanW16K (t : List KickSel) (c : String) : Option ℚ :=
  meanOpt ((t.filter (fun r => r.country == c)).map (fun r => r.w16))

/-- AUC-branch analogue of `countryMeanW16K`. -/
def countryMeanW16A (t : List AucSel) : String → Option ℚ := fun c =>
  meanOpt ((t.filter (fun r => r.country == c)).map (fun r => r.w16))

/-- Line 100: `baseline_map = {"England": eng_baseline, "Scotland": sct_baseline}`,
read through `Series.map`, which yields `NaN` for a country absent from the
dict. -/
def baselineMap (engB sctB : Option ℚ) (c : String) : Option ℚ :=
  if c == "England" then engB else if c == "Scotland" then sctB else none

/-- Lines 101-102 applied to one kick-off row: divide its `w1-6` and `w7`
values by its country's baseline, looked up through the baseline map. -/
def normKickRow (engB sctB : Option ℚ) (r : KickSel) : KickSel :=
  ⟨r.country, r.gym, odiv r.w16 (baselineMap engB sctB r.country),
    odiv r.w7 (baselineMap engB sctB r.country)⟩

/-- Lines 97-102: per-country normalisation of the `w1-6` and `w7` columns
in the kick-off branch. -/
def normalizeKick (t : List KickSel) : List KickSel :=
  let engB := countryMeanW16K t "England"
  let sctB := countryMeanW16K t "Scotland"
  t.map (normKickRow engB sctB)

/-- Lines 129-130 applied to one AUC row. -/
def normAucRow (engB sctB : Option ℚ) (r : AucSel) : AucSel :=
  ⟨r.country, r.gym, r.time, odiv r.w16 (baselineMap engB sctB r.country),
    odiv r.w7 (baselineMap engB sctB r.country)⟩

/-- Lines 125-130: per-country normalisation in the AUC branch. -/
def normalizeAuc (t : List AucSel) : List AucSel :=
  let engB := countryMeanW16A t "England"
  let sctB := countryMeanW16A t "Scotland"
  t.map (normAucRow engB sctB)

/-- Lines 103-107: `melt(id_vars=["country", "gym"], value_vars=["w1-6", "w7"])`:
all `w1-6` observations, then all `w7` observations, preserving row order. -/
def kickMelt (t : List KickSel) : List LongRow :=
  t.map (fun r => ⟨r.country, r.gym, "w1-6", r.w16⟩) ++
    t.map (fun r => ⟨r.country, r.gym, "w7", r.w7⟩)

/-- Lines 131-135: the AUC branch's melt, keeping the time-of-day column. -/
def aucMelt (t : List AucSel) : List AucLong :=
  t.map (fun r => ⟨r.country, r.gym, r.time, "w1-6", r.w16⟩) ++
    t.map (fun r => ⟨r.country, r.gym, r.time, "w7", r.w7⟩)

/-! ### Simpson integration (`scipy.integrate.simps`) -/

/-- One nonuniform Simpson segment over the three sample points
`(x0, y0), (x1, y1), (x2, y2)`, exactly as scipy's basic Simpson step
computes it. -/
def simpsonSegment (x0 x1 x2 : ℚ) (y0 y1 y2 : Option ℚ) : Option ℚ :=
  let h0 := x1 - x0
  let h1 := x2 - x1
  let hsum := h0 + h1
  let hprod := h0 * h1
  let h0divh1 := h0 / h1
  (oadd (oadd (y0.map (fun v => v * (2 - 1 / h0divh1)))
        (y1.map (fun v => v * (hsum * hsum / hprod))))
      (y2.map (fun v => v * (2 - h0divh1)))).map (fun v => v * (hsum / 6))

/-- Composite basic Simpson sum over consecutive point pairs (scipy's
`_basic_simpson` over `range(start, stop, 2)`), with the step's first
sample point carried as a parameter; an empty range sums to 0. -/
def basicSimpsonFrom (p0 : ℚ × Option ℚ) : List (ℚ × Option ℚ) → Option ℚ
  | p1 :: p2 :: ps =>
    oadd (simpsonSegment p0.1 p1.1 p2.1 p0.2 p1.2 p2.2) (basicSimpsonFrom p2 ps)
  | _ => some 0

/-- Composite basic Simpson sum over a whole sample list. -/
def basicSimpson : List (ℚ × Option ℚ) → Option ℚ
  | p0 :: rest => basicSimpsonFrom p0 rest
  | [] => some 0

/-- `scipy.integrate.simps(y, x)` with the default `even="avg"` handling:
for an odd number of samples the composite Simpson sum; for an even number,
the average of (trapezoid on the last interval + Simpson on the rest) and
(trapezoid on the first interval + Simpson on the rest).  scipy raises on
an empty array; groups produced by `groupby` are never empty. -/
def simps (x : List ℚ) (y : List (Option ℚ)) : Option ℚ :=
  let pts := x.zip y
  let N := y.length
  if N % 2 = 0 then
    if N = 0 then some 0
    else
      let lastDx := x.getD (N - 1) 0 - x.getD (N - 2) 0
      let valLast := (oadd (y.getD (N - 1) none) (y.getD (N - 2) none)).map
        (fun v => 1 / 2 * lastDx * v)
      let resLast := basicSimpson pts.dropLast
      let firstDx := x.getD 1 0 - x.getD 0 0
      let valFirst := (oadd (y.getD 1 none) (y.getD 0 none)).map
        (fun v => 1 / 2 * firstDx * v)
      let resFirst := basicSimpson pts.tail
      oadd ((oadd resLast resFirst).map (fun v => v / 2))
        ((oadd valLast valFirst).map (fun v => v / 2))
  else basicSimpson pts

/-! ### AUC groupby and output ordering -/

/-- Line 136: `dfw["time"].apply(lambda x: x.hour + x.minute / 60)`. -/
def timeHours (t : Nat) : ℚ := ((t / 60 : Nat) : ℚ) + ((t % 60 : Nat) : ℚ) / 60

/-- The rows of one `groupby(["country", "gym", "week"])` group, in their
original order. -/
def aucGroup (m : List AucLong) (c g w : String) : List AucLong :=
  m.filter (fun r => r.country == c && r.gym == g && r.week == w)

/-- Lines 72-75: the `auc` helper — `simps` over a group's time/occupancy
columns. -/
def auc (grp : List AucLong) : Option ℚ :=
  simps (grp.map (fun r => timeHours r.time)) (grp.map (fun r => r.value))

/-- Lines 137-141: `groupby(["country", "gym", "week"]).apply(auc)` —
one output row per group key, keys in sorted order. -/
def aucApply (m : List AucLong) : List LongRow :=
  (sortedDistinct keyLtG (m.map (fun r => (r.country, r.gym, r.week)))).map
    (fun k => ⟨k.1, k.2.1, k.2.2, auc (aucGroup m k.1 k.2.1 k.2.2)⟩)

/-- Strict (week, gym) order on result rows, for
`sort_values(["week", "gym"])`. -/
def rowLt (a b : LongRow) : Bool :=
  strLt a.week b.week || (a.week == b.week && strLt a.gym b.gym)

/-- The non-strict (week, gym) row order: `rowLe a b` says `b` does not
come strictly before `a`. -/
def rowLe (a b : LongRow) : Prop := rowLt b a = false

instance : DecidableRel rowLe := fun a b => instDecidableEqBool (rowLt b a) false

/-- Line 142: `sort_values(["week", "gym"])` — sort the grouped results
ascending by week label, then by gym. -/
def sortRows (l : List LongRow) : List LongRow :=
  l.insertionSort rowLe

/-! ### `prep_data_stats` -/

/-- Line 81's boolean filter: rows whose time of day is exactly
`time(int(kickoff), 0, 0)` (`datetime.time` raises unless the hour is in
0..23; that check is made by `prep_data_stats` itself). -/
def kickFiltered (df : List WindowedRecord) (kickoff : Int) : List TimeRecord :=
  (df.map toTimeRecord).filter (fun r => decide ((r.time : Int) = kickoff * 60))

deriving instance DecidableEq for Except

/-- The AUC branch up to (and including) the melt: pivot, add `w1-6`,
optionally normalise, melt to long rows. -/
def aucLongRows (df : List WindowedRecord) (norm : Bool) : Except String (List AucLong) :=
  match aucPivot (df.map toTimeRecord) with
  | Except.error e => Except.error e
  | Except.ok t =>
    Except.ok (aucMelt (if norm then normalizeAuc (aucSelect t) else aucSelect t))

/-- Lines 46-147 of `utils.py`: the Metric Aggregator.  Dispatches on the
`metric` string; the final `else` prints a message and returns `None`. -/
def prep_data_stats (df : List WindowedRecord) (kickoff : Int) (norm : Bool)
    (metric : String) : PyResult :=
  if metric == "kick-off" then
    if kickoff < 0 ∨ 23 < kickoff then
      PyResult.exn "ValueError: hour must be in 0..23"
    else
      match kickPivot (kickFiltered df kickoff) with
      | Except.error e => PyResult.exn e
      | Except.ok t =>
        PyResult.ok (kickMelt (if norm then normalizeKick (kickSelect t) else kickSelect t))
  else if metric == "auc" then
    match aucLongRows df norm with
    | Except.error e => PyResult.exn e
    | Except.ok m => PyResult.ok (sortRows (aucApply m))
  else PyResult.noneReturn

/-! ### Concrete inputs used by the claim theorems -/

/-- Build a raw record from a civil date, minutes past midnight, and the
remaining columns. -/
def rawAt (y m d : Int) (minutes : Nat) (c g : String) (occ : ℚ) : RawRecord :=
  ⟨(daysFromCivil y m d).toNat * 1440 + minutes, c, g, occ⟩

/-- Build a windowed record with week `w`, whose timestamp falls on day `k`
of the dataset at `minutes` past midnight. -/
def wrecAt (k minutes : Nat) (c g : String) (occ : ℚ) (w : Int) : WindowedRecord :=
  ⟨k * 10080 + minutes, c, g, occ, w⟩

/-- Two same-weekday (Friday) records straddling the 2020/2021 year
boundary: ISO weeks 49 (of 2020) and 1 (of 2021). -/
def yearBoundaryInput : List RawRecord :=
  [rawAt 2020 12 4 1200 "England" "gymA" 40, rawAt 2021 1 8 1200 "England" "gymA" 50]

/-- The match date for `yearBoundaryInput`: Friday 2021-01-08. -/
def yearBoundaryDate : Int := daysFromCivil 2021 1 8

/-- Two consecutive Fridays in mid-2021 (ISO weeks 23 and 24). -/
def plainWindowInput : List RawRecord :=
  [rawAt 2021 6 11 1200 "England" "gymA" 40, rawAt 2021 6 18 1200 "England" "gymA" 50]

/-- The match date for `plainWindowInput`: Friday 2021-06-18. -/
def plainWindowDate : Int := daysFromCivil 2021 6 18

/-- A record whose timestamp is exactly midnight of the day after the
match date (match date = day 0). -/
def nextMidnightRecord : RawRecord := ⟨1440, "England", "gymA", 50⟩

/-- One England gym with exactly one sample per week (at 20:00) across
weeks 1..7. -/
def singleTimeInput : List WindowedRecord :=
  (List.range 7).map (fun k => wrecAt k 1200 "England" "gymA" 50 (k + 1))

/-- One England gym with hourly samples of constant occupancy 50 across
weeks 1..7: the spec's kick-off worked example. -/
def hourlyConstInput : List WindowedRecord :=
  ((List.range 7).map (fun k =>
    (List.range 24).map (fun h => wrecAt k (h * 60) "England" "gymA" 50 (k + 1)))).flatten

/-- An England gym and a Wales gym, each sampled once per week at 20:00
across weeks 1..7. -/
def walesInput : List WindowedRecord :=
  (List.range 7).map (fun k => wrecAt k 1200 "England" "gymA" 50 (k + 1)) ++
    (List.range 7).map (fun k => wrecAt k 1200 "Wales" "gymW" 50 (k + 1))

/-- One England gym sampled at 20:00 and 21:00 in each of weeks 1..7. -/
def twoTimesInput : List WindowedRecord :=
  ((List.range 7).map (fun k =>
    [wrecAt k 1200 "England" "gymA" 50 (k + 1),
     wrecAt k 1260 "England" "gymA" 50 (k + 1)])).flatten

/-- One England gym sampled once per week at 20:00, with week numbers
1,2,3,4,5,6,9: seven distinct values that are not {1,...,7}. -/
def gappedWeeksInput : List WindowedRecord :=
  (List.range 6).map (fun k => wrecAt k 1200 "England" "gymA" 50 (k + 1)) ++
    [wrecAt 6 1200 "England" "gymA" 50 9]

/-- A normalised-branch input table: an all-zero England gym (zero country
baseline) and a Wales gym (absent from the baseline map). -/
def zeroBaselineTable : List KickSel :=
  [⟨"England", "gymA", some 0, some 0⟩, ⟨"Wales", "gymW", some 50, some 50⟩]

/-! ### Lemmas: lexicographic comparisons -/

theorem lexLt_cons {α : Type} [LinearOrder α] (x y : α) (xs ys : List α) :
    lexLt (x :: xs) (y :: ys) = true ↔ x < y ∨ (x = y ∧ lexLt xs ys = true) := by
  simp only [lexLt]
  split_ifs with h1 h2
  · simp [h1]
  · simp only [Bool.false_eq_true, false_iff]
    rintro (h | ⟨rfl, -⟩)
    · exact h1 h
    · exact lt_irrefl _ h2
  · have hxy : x = y := le_antisymm (not_lt.mp h2) (not_lt.mp h1)
    simp [hxy, lt_irrefl]

theorem lexLt_irrefl {α : Type} [LinearOrder α] : ∀ (a : List α), lexLt a a = false
  | [] => rfl
  | x :: xs => by
    simp only [lexLt, lt_irrefl, if_false]
    exact lexLt_irrefl xs

theorem lexLt_trans {α : Type} [LinearOrder α] :
    ∀ (a b c : List α), lexLt a b = true → lexLt b c = true → lexLt a c = true
  | _, b, [], _, h2 => by cases b <;> simp [lexLt] at h2
  | [], _ :: _, _ :: _, _, _ => rfl
  | _ :: _, [], _, h1, _ => by simp [lexLt] at h1
  | x :: xs, y :: ys, z :: zs, h1, h2 => by
    rcases (lexLt_cons x y xs ys).mp h1 with h | ⟨hxy, h⟩
    · rcases (lexLt_cons y z ys zs).mp h2 with h' | ⟨hyz, h'⟩
      · exact (lexLt_cons x z xs zs).mpr (Or.inl (lt_trans h h'))
      · exact (lexLt_cons x z xs zs).mpr (Or.inl (lt_of_lt_of_le h (le_of_eq hyz)))
    · rcases (lexLt_cons y z ys zs).mp h2 with h' | ⟨hyz, h'⟩
      · exact (lexLt_cons x z xs zs).mpr (Or.inl (lt_of_le_of_lt (le_of_eq hxy) h'))
      · exact (lexLt_cons x z xs zs).mpr (Or.inr ⟨hxy.trans hyz, lexLt_trans xs ys zs h h'⟩)

theorem lexLt_conn {α : Type} [LinearOrder α] :
    ∀ (a b : List α), lexLt a b = false → lexLt b a = false → a = b
  | [], [], _, _ => rfl
  | [], _ :: _, h1, _ => by simp [lexLt] at h1
  | _ :: _, [], _, h2 => by simp [lexLt] at h2
  | x :: xs, y :: ys, h1, h2 => by
    have hx : ¬ x < y := fun h =>
      by simp [(lexLt_cons x y xs ys).mpr (Or.inl h)] at h1
    have hy : ¬ y < x := fun h =>
      by simp [(lexLt_cons y x ys xs).mpr (Or.inl h)] at h2
    have hxy : x = y := le_antisymm (not_lt.mp hy) (not_lt.mp hx)
    subst hxy
    have hxs : lexLt xs ys = false := by
      cases h : lexLt xs ys with
      | false => rfl
      | true => simp [(lexLt_cons x x xs ys).mpr (Or.inr ⟨rfl, h⟩)] at h1
    have hys : lexLt ys xs = false := by
      cases h : lexLt ys xs with
      | false => rfl
      | true => simp [(lexLt_cons x x ys xs).mpr (Or.inr ⟨rfl, h⟩)] at h2
    rw [lexLt_conn xs ys hxs hys]

theorem lexLt_asymm {α : Type} [LinearOrder α] (a b : List α)
    (h : lexLt a b = true) : lexLt b a = false := by
  cases h' : lexLt b a with
  | false => rfl
  | true =>
    have h2 := lexLt_trans a b a h h'
    rw [lexLt_irrefl] at h2
    exact h2.symm

theorem strLt_trans (a b c : String) (h1 : strLt a b = true) (h2 : strLt b c = true) :
    strLt a c = true := lexLt_trans _ _ _ h1 h2

theorem strLt_conn (a b : String) (h1 : strLt a b = false) (h2 : strLt b a = false) :
    a = b := by
  cases a with
  | mk da => cases b with
    | mk db => exact congrArg String.mk (lexLt_conn da db h1 h2)

theorem strLt_asymm (a b : String) (h : strLt a b = true) : strLt b a = false :=
  lexLt_asymm _ _ h

theorem strLt_irrefl (a : String) : strLt a a = false := lexLt_irrefl _

/-! ### Lemmas: the (week, gym) result-row order -/

theorem strLt_negtrans (a b c : String) (h1 : strLt b a = false)
    (h2 : strLt c b = false) : strLt c a = false := by
  cases h : strLt c a with
  | false => rfl
  | true =>
    cases h' : strLt a b with
    | true =>
      have htr := strLt_trans c a b h h'
      simp [h2] at htr
    | false =>
      have hab := strLt_conn a b h' h1
      rw [← hab] at h2
      simp [h] at h2

theorem rowLt_asymm (a b : LongRow) (h : rowLt a b = true) : rowLt b a = false := by
  simp only [rowLt, Bool.or_eq_true, Bool.and_eq_true, beq_iff_eq] at h
  rcases h with hw | ⟨hw, hg⟩
  · have h1 : strLt b.week a.week = false := strLt_asymm _ _ hw
    have h2 : (b.week == a.week) = false := by
      apply beq_eq_false_iff_ne.mpr
      intro e
      rw [e] at hw
      simp [strLt_irrefl] at hw
    simp [rowLt, h1, h2]
  · have h1 : strLt b.week a.week = false := by rw [hw]; exact strLt_irrefl _
    have h3 : strLt b.gym a.gym = false := strLt_asymm _ _ hg
    simp [rowLt, h1, h3]

theorem rowLt_negtrans (a b c : LongRow) (h1 : rowLt b a = false) (h2 : rowLt c b = false) :
    rowLt c a = false := by
  simp only [rowLt, Bool.or_eq_false_iff] at h1 h2
  obtain ⟨hw1, hg1⟩ := h1
  obtain ⟨hw2, hg2⟩ := h2
  have hwca : strLt c.week a.week = false := strLt_negtrans _ _ _ hw1 hw2
  have hgca : ((c.week == a.week) && strLt c.gym a.gym) = false := by
    cases hca : c.week == a.week with
    | false => simp
    | true =>
      simp only [Bool.true_and]
      have hcaEq : c.week = a.week := eq_of_beq hca
      have hcb : c.week = b.week := by
        have hbc : strLt b.week c.week = false := by rw [hcaEq]; exact hw1
        exact strLt_conn _ _ hw2 hbc
      have hg1x : strLt b.gym a.gym = false := by
        have hbeq : (b.week == a.week) = true := beq_iff_eq.mpr (hcb.symm.trans hcaEq)
        simpa [hbeq] using hg1
      have hg2x : strLt c.gym b.gym = false := by
        have hbeq : (c.week == b.week) = true := beq_iff_eq.mpr hcb
        simpa [hbeq] using hg2
      exact strLt_negtrans _ _ _ hg1x hg2x
  simp [rowLt, hwca, hgca]

/-! ### Lemmas: column minima and maxima -/

theorem foldl_min_le (ws : List Int) : ∀ (w : Int), ∀ x ∈ w :: ws, ws.foldl min w ≤ x := by
  induction ws with
  | nil =>
    intro w x hx
    rcases List.mem_cons.mp hx with rfl | hx'
    · exact le_refl _
    · exact absurd hx' (List.not_mem_nil _)
  | cons y ys ih =>
    intro w x hx
    simp only [List.foldl_cons]
    rcases List.mem_cons.mp hx with rfl | hx'
    · exact le_trans (ih (min x y) _ (List.mem_cons_self _ _)) (min_le_left _ _)
    · rcases List.mem_cons.mp hx' with rfl | hx''
      · exact le_trans (ih (min w x) _ (List.mem_cons_self _ _)) (min_le_right _ _)
      · exact ih (min w y) x (List.mem_cons_of_mem _ hx'')

theorem foldl_min_mem (ws : List Int) : ∀ (w : Int), ws.foldl min w ∈ w :: ws := by
  induction ws with
  | nil => intro w; exact List.mem_cons_self _ _
  | cons y ys ih =>
    intro w
    simp only [List.foldl_cons]
    rcases List.mem_cons.mp (ih (min w y)) with h | h
    · rcases min_choice w y with h' | h' <;> rw [h, h']
      · exact List.mem_cons_self _ _
      · exact List.mem_cons_of_mem _ (List.mem_cons_self _ _)
    · exact List.mem_cons_of_mem _ (List.mem_cons_of_mem _ h)

theorem foldl_max_ge (ws : List Int) : ∀ (w : Int), ∀ x ∈ w :: ws, x ≤ ws.foldl max w := by
  induction ws with
  | nil =>
    intro w x hx
    rcases List.mem_cons.mp hx with rfl | hx'
    · exact le_refl _
    · exact absurd hx' (List.not_mem_nil _)
  | cons y ys ih =>
    intro w x hx
    simp only [List.foldl_cons]
    rcases List.mem_cons.mp hx with rfl | hx'
    · exact le_trans (le_max_left _ _) (ih (max x y) _ (List.mem_cons_self _ _))
    · rcases List.mem_cons.mp hx' with rfl | hx''
      · exact le_trans (le_max_right _ _) (ih (max w x) _ (List.mem_cons_self _ _))
      · exact ih (max w y) x (List.mem_cons_of_mem _ hx'')

theorem foldl_max_mem (ws : List Int) : ∀ (w : Int), ws.foldl max w ∈ w :: ws := by
  induction ws with
  | nil => intro w; exact List.mem_cons_self _ _
  | cons y ys ih =>
    intro w
    simp only [List.foldl_cons]
    rcases List.mem_cons.mp (ih (max w y)) with h | h
    · rcases max_choice w y with h' | h' <;> rw [h, h']
      · exact List.mem_cons_self _ _
      · exact List.mem_cons_of_mem _ (List.mem_cons_self _ _)
    · exact List.mem_cons_of_mem _ (List.mem_cons_of_mem _ h)

theorem foldMin_le {l : List Int} {m : Int} (h : foldMin l = some m) : ∀ x ∈ l, m ≤ x := by
  cases l with
  | nil => exact absurd h (by simp [foldMin])
  | cons w ws =>
    intro x hx
    have hm : ws.foldl min w = m := Option.some.inj h
    exact hm ▸ foldl_min_le ws w x hx

theorem foldMin_mem {l : List Int} {m : Int} (h : foldMin l = some m) : m ∈ l := by
  cases l with
  | nil => exact absurd h (by simp [foldMin])
  | cons w ws =>
    have hm : ws.foldl min w = m := Option.some.inj h
    exact hm ▸ foldl_min_mem ws w

theorem foldMax_ge {l : List Int} {m : Int} (h : foldMax l = some m) : ∀ x ∈ l, x ≤ m := by
  cases l with
  | nil => exact absurd h (by simp [foldMax])
  | cons w ws =>
    intro x hx
    have hm : ws.foldl max w = m := Option.some.inj h
    exact hm ▸ foldl_max_ge ws w x hx

theorem foldMax_mem {l : List Int} {m : Int} (h : foldMax l = some m) : m ∈ l := by
  cases l with
  | nil => exact absurd h (by simp [foldMax])
  | cons w ws =>
    have hm : ws.foldl max w = m := Option.some.inj h
    exact hm ▸ foldl_max_mem ws w

/-! ### Lemmas: missing-value arithmetic -/

theorem odiv_none (o : Option ℚ) : odiv o none = none := by cases o <;> rfl

theorem filterMap_id_map_odiv (l : List (Option ℚ)) (b : ℚ) :
    (l.map (fun o => odiv o (some b))).filterMap id = (l.filterMap id).map (fun x => x / b) := by
  induction l with
  | nil => rfl
  | cons o os ih =>
    cases o with
    | none =>
      have h : odiv none (some b) = none := rfl
      simp [h, List.filterMap_cons, ih]
    | some x =>
      have h : odiv (some x) (some b) = some (x / b) := rfl
      simp [h, List.filterMap_cons, ih]

theorem sum_map_div (v : List ℚ) (b : ℚ) : (v.map (fun x => x / b)).sum = v.sum / b := by
  induction v with
  | nil => simp
  | cons x xs ih => simp [ih, add_div]

theorem meanOpt_map_odiv (l : List (Option ℚ)) (b : ℚ) :
    meanOpt (l.map (fun o => odiv o (some b))) = (meanOpt l).map (fun x => x / b) := by
  unfold meanOpt
  rw [filterMap_id_map_odiv]
  cases hv : l.filterMap id with
  | nil => simp
  | cons x xs =>
    simp only [List.isEmpty_cons, List.map_cons, List.isEmpty_nil, Bool.false_eq_true,
      if_false, List.length_map, List.length_cons, Option.map_some']
    rw [show ((x / b) :: xs.map (fun y => y / b)) = ((x :: xs).map (fun y => y / b)) from rfl,
      sum_map_div]
    rw [div_right_comm]

/-! ### Lemmas: branch equations and pipeline helpers -/

theorem prep_data_eq (df_raw : List RawRecord) (match_date : Int) :
    prep_data df_raw match_date =
      match foldMin ((prepFiltered df_raw match_date).map (fun s => isoWeek (recordDay s))) with
      | none => []
      | some wmin =>
        match foldMax (((prepFiltered df_raw match_date).map (fun s =>
            (⟨s.datetime, s.country, s.gym, s.occupancy,
              isoWeek (recordDay s) - wmin + 1⟩ : WindowedRecord))).map (fun s => s.week)) with
        | none => []
        | some wmax =>
          if wmax = 8 then
            (((prepFiltered df_raw match_date).map (fun s =>
              (⟨s.datetime, s.country, s.gym, s.occupancy,
                isoWeek (recordDay s) - wmin + 1⟩ : WindowedRecord))).map
                  (fun s => { s with week := s.week - 1 })).filter (fun s => decide (s.week > 0))
          else
            (prepFiltered df_raw match_date).map (fun s =>
              (⟨s.datetime, s.country, s.gym, s.occupancy,
                isoWeek (recordDay s) - wmin + 1⟩ : WindowedRecord)) := rfl

theorem prep_data_stats_kick (df : List WindowedRecord) (kickoff : Int) (norm : Bool) :
    prep_data_stats df kickoff norm "kick-off" =
      if kickoff < 0 ∨ 23 < kickoff then
        PyResult.exn "ValueError: hour must be in 0..23"
      else
        match kickPivot (kickFiltered df kickoff) with
        | Except.error e => PyResult.exn e
        | Except.ok t =>
          PyResult.ok (kickMelt (if norm then normalizeKick (kickSelect t) else kickSelect t)) :=
  rfl

theorem prep_data_stats_auc (df : List WindowedRecord) (kickoff : Int) (norm : Bool) :
    prep_data_stats df kickoff norm "auc" =
      match aucLongRows df norm with
      | Except.error e => PyResult.exn e
      | Except.ok m => PyResult.ok (sortRows (aucApply m)) := rfl

theorem filter_map_filter {α β : Type} (f : α → β) (q : β → Bool) (l : List α) :
    ((l.filter (fun a => q (f a))).map f).filter q = (l.map f).filter q := by
  induction l with
  | nil => rfl
  | cons a as ih =>
    simp only [List.filter_cons, List.map_cons]
    cases h : q (f a) with
    | true => simp only [h, if_true, List.map_cons, List.filter_cons, ih]
    | false => simp only [h, Bool.false_eq_true, if_false, ih]

theorem filter_pred_map {α : Type} (f : α → α) (p : α → Bool) (hp : ∀ r, p (f r) = p r)
    (t : List α) : (t.map f).filter p = (t.filter p).map f := by
  induction t with
  | nil => rfl
  | cons r rs ih =>
    simp only [List.map_cons, List.filter_cons, hp]
    cases h : p r with
    | true => simp only [if_true, List.map_cons, ih]
    | false => simp only [Bool.false_eq_true, if_false, ih]

theorem kickFiltered_filter (df : List WindowedRecord) (k : Int) :
    kickFiltered (df.filter (fun r => decide (((r.datetime % 1440 : Nat) : Int) = k * 60))) k
      = kickFiltered df k :=
  filter_map_filter toTimeRecord (fun tr => decide ((tr.time : Int) = k * 60)) df

theorem auc_singleton (g : List AucLong) (h : g.length = 1) : auc g = some 0 := by
  obtain ⟨x, rfl⟩ := List.length_eq_one.mp h
  rfl

instance : IsTotal LongRow rowLe where
  total a b := by
    cases h : rowLt b a with
    | false => exact Or.inl h
    | true => exact Or.inr (rowLt_asymm _ _ h)

instance : IsTrans LongRow rowLe where
  trans a b c h1 h2 := rowLt_negtrans a b c h1 h2

/-! ### Claim theorems

The core `Rat` operations are `@[irreducible]` by default; making them
semireducible in this section lets concrete pipeline runs be evaluated by
`decide`. -/

section ClaimTheorems

attribute [local semireducible] Rat.add Rat.mul Rat.sub Rat.inv

/-- C1 (counterexample): called with the unrecognised metric `"median"`,
`prep_data_stats` returns `None` (modelled by `PyResult.noneReturn`) instead
of failing with an InvalidMetric error, contradicting the claim that it
"fails with an InvalidMetric error and does not return a null/None
result". -/
theorem c1_counterexample : prep_data_stats [] 20 true "median" = PyResult.noneReturn := by
  decide

/-- C1 (amended): for every windowed input and every metric value other
than `"kick-off"` and `"auc"`, `prep_data_stats` prints a message and
returns `None` (`PyResult.noneReturn`); no error is raised. -/
theorem c1_invalid_metric_none (df : List WindowedRecord) (kickoff : Int) (norm : Bool)
    (metric : String) (h1 : metric ≠ "kick-off") (h2 : metric ≠ "auc") :
    prep_data_stats df kickoff norm metric = PyResult.noneReturn := by
  simp [prep_data_stats, h1, h2]

/-- C1 (witness): the amended theorem instantiated at the concrete metric
`"other"`. -/
theorem c1_witness : prep_data_stats [] 20 true "other" = PyResult.noneReturn :=
  c1_invalid_metric_none [] 20 true "other" (by decide) (by decide)

/-- C3 (counterexample): a record stamped exactly at midnight of the day
after the match date (match date = day 0, timestamp = minute 1440) is
retained by the filtering step, although the claim says every record with
`timestamp ≥ event_date + 1 day` is excluded: the code compares with `<=`,
not `<`. -/
theorem c3_counterexample :
    nextMidnightRecord ∈ filterStep [nextMidnightRecord] 0 ∧
      ((0 : Int) + 1) * 1440 ≤ (nextMidnightRecord.datetime : Int) := by decide

/-- C3 (amended): the filtering step retains exactly the records whose
timestamp is less than **or equal to** `event_date + 1 day`. -/
theorem c3_filter_le (df_raw : List RawRecord) (match_date : Int) (r : RawRecord) :
    r ∈ filterStep df_raw match_date ↔
      r ∈ df_raw ∧ (r.datetime : Int) ≤ (match_date + 1) * 1440 := by
  simp only [filterStep, List.mem_filter, decide_eq_true_eq]
  constructor
  · rintro ⟨h1, h2⟩
    exact ⟨h1, by omega⟩
  · rintro ⟨h1, h2⟩
    exact ⟨h1, by omega⟩

/-- C3 (witness): the amended theorem instantiated at the concrete record
`nextMidnightRecord` and match date 0. -/
theorem c3_witness :
    nextMidnightRecord ∈ filterStep [nextMidnightRecord] 0 ↔
      nextMidnightRecord ∈ [nextMidnightRecord] ∧
        (nextMidnightRecord.datetime : Int) ≤ ((0 : Int) + 1) * 1440 :=
  c3_filter_le [nextMidnightRecord] 0 nextMidnightRecord

/-- C4: every record in the Window Selector's output falls on the same day
of week as the match date. -/
theorem c4_same_weekday (df_raw : List RawRecord) (match_date : Int) (r : WindowedRecord)
    (h : r ∈ prep_data df_raw match_date) :
    dayOfWeek ((r.datetime : Int).ediv 1440) = dayOfWeek match_date := by
  have key : ∃ r1 ∈ prepFiltered df_raw match_date, r.datetime = r1.datetime := by
    rw [prep_data_eq] at h
    split at h
    · exact absurd h (List.not_mem_nil _)
    · split at h
      · exact absurd h (List.not_mem_nil _)
      · split at h
        · obtain ⟨hs, hfilt⟩ := List.mem_filter.mp h
          obtain ⟨s2, hs2, rfl⟩ := List.mem_map.mp hs
          obtain ⟨r1, hr1, rfl⟩ := List.mem_map.mp hs2
          exact ⟨r1, hr1, rfl⟩
        · obtain ⟨r1, hr1, rfl⟩ := List.mem_map.mp h
          exact ⟨r1, hr1, rfl⟩
  obtain ⟨r1, hr1, hdt⟩ := key
  have hdec := (List.mem_filter.mp hr1).2
  have hdw : dayOfWeek (recordDay r1) = dayOfWeek match_date := of_decide_eq_true hdec
  rw [hdt]
  exact hdw

/-- C4 (witness): the theorem instantiated at the first output record of a
concrete two-Friday window. -/
theorem c4_witness :
    dayOfWeek (((27057360 : Nat) : Int).ediv 1440) = dayOfWeek plainWindowDate :=
  c4_same_weekday plainWindowInput plainWindowDate
    ⟨27057360, "England", "gymA", 40, 1⟩ (by decide)

/-- C7: in the kick-off branch, only records whose time of day is exactly
`kickoff:00:00` contribute (pre-filtering the input to those records leaves
the result unchanged), and on seven weeks of hourly constant-50 data for
one England facility with `kickoff = 20` and `norm = false` the output is
exactly the two rows `("England", "gymA", "w1-6", 50)` and
`("England", "gymA", "w7", 50)`. -/
theorem c7_kickoff_exact_time :
    (∀ (df : List WindowedRecord) (kickoff : Int) (norm : Bool),
      prep_data_stats df kickoff norm "kick-off" =
        prep_data_stats
          (df.filter (fun r => decide (((r.datetime % 1440 : Nat) : Int) = kickoff * 60)))
          kickoff norm "kick-off") ∧
    prep_data_stats hourlyConstInput 20 false "kick-off" =
      PyResult.ok [⟨"England", "gymA", "w1-6", some 50⟩, ⟨"England", "gymA", "w7", some 50⟩] := by
  constructor
  · intro df kickoff norm
    rw [prep_data_stats_kick, prep_data_stats_kick, kickFiltered_filter]
  · decide

/-- C2 (counterexample): two same-weekday records straddling the 2020/2021
year boundary (ISO weeks 49 and 1).  After renumbering, the output carries
week 49 — the renumbered maximum is 49, not 8, so the off-by-one correction
does not fire and a week number greater than 7 escapes, contradicting the
claim that output weeks never exceed 7 even across a year boundary (they
are not a contiguous set either). -/
theorem c2_counterexample :
    (¬ ∀ r ∈ prep_data yearBoundaryInput yearBoundaryDate, r.week ≤ 7) ∧
      (prep_data yearBoundaryInput yearBoundaryDate).map (fun r => r.week) = [49, 1] := by
  decide

/-- C2 (amended): whenever the retained records' ISO week numbers span at
most 8 values (every pairwise difference is at most 7), every week number
in the Window Selector's output lies in {1,...,7}. -/
theorem c2_weeks_in_range (df_raw : List RawRecord) (match_date : Int)
    (hspread : ∀ r1 ∈ prepFiltered df_raw match_date, ∀ r2 ∈ prepFiltered df_raw match_date,
      isoWeek (recordDay r1) - isoWeek (recordDay r2) ≤ 7) :
    ∀ r ∈ prep_data df_raw match_date, 1 ≤ r.week ∧ r.week ≤ 7 := by
  intro r hr
  rw [prep_data_eq] at hr
  split at hr
  · exact absurd hr (List.not_mem_nil _)
  · rename_i wmin hmin
    have hbound : ∀ s ∈ (prepFiltered df_raw match_date).map (fun s =>
        (⟨s.datetime, s.country, s.gym, s.occupancy,
          isoWeek (recordDay s) - wmin + 1⟩ : WindowedRecord)),
        1 ≤ s.week ∧ s.week ≤ 8 := by
      intro s hs
      obtain ⟨r2, hr2, rfl⟩ := List.mem_map.mp hs
      constructor
      · have hmin2 : wmin ≤ isoWeek (recordDay r2) :=
          foldMin_le hmin _ (List.mem_map.mpr ⟨r2, hr2, rfl⟩)
        show 1 ≤ isoWeek (recordDay r2) - wmin + 1
        omega
      · obtain ⟨rm, hrm, hrmw⟩ := List.mem_map.mp (foldMin_mem hmin)
        have h7 := hspread r2 hr2 rm hrm
        rw [hrmw] at h7
        show isoWeek (recordDay r2) - wmin + 1 ≤ 8
        omega
    split at hr
    · exact absurd hr (List.not_mem_nil _)
    · rename_i wmax hmax
      split at hr
      · obtain ⟨hmem, hpos⟩ := List.mem_filter.mp hr
        obtain ⟨s, hs, rfl⟩ := List.mem_map.mp hmem
        have hb := hbound s hs
        have hp : s.week - 1 > 0 := of_decide_eq_true hpos
        constructor
        · show 1 ≤ s.week - 1
          omega
        · show s.week - 1 ≤ 7
          omega
      · have hb := hbound r hr
        have hle : r.week ≤ wmax := foldMax_ge hmax _ (List.mem_map.mpr ⟨r, hr, rfl⟩)
        have hwmax : wmax ≤ 8 := by
          obtain ⟨s, hs, hsw⟩ := List.mem_map.mp (foldMax_mem hmax)
          have hs8 := (hbound s hs).2
          omega
        rename_i h8
        exact ⟨hb.1, by omega⟩

/-- C2 (witness): the amended theorem instantiated at a concrete
two-Friday window in mid-2021 (ISO weeks 23 and 24) and its first output
record. -/
theorem c2_witness :
    1 ≤ (⟨27057360, "England", "gymA", 40, 1⟩ : WindowedRecord).week ∧
      (⟨27057360, "England", "gymA", 40, 1⟩ : WindowedRecord).week ≤ 7 :=
  c2_weeks_in_range plainWindowInput plainWindowDate (by decide)
    ⟨27057360, "England", "gymA", 40, 1⟩ (by decide)

/-- C10 (counterexample): an input whose week numbers are 1,2,3,4,5,6,9 —
seven distinct values, but not the set {1,...,7} — still produces a result:
the column assignment only needs seven distinct week values, not exactly
weeks 1..7 (the "w7" column here silently holds week 9's data). -/
theorem c10_counterexample :
    prep_data_stats gappedWeeksInput 20 false "kick-off" =
        PyResult.ok [⟨"England", "gymA", "w1-6", some 50⟩,
          ⟨"England", "gymA", "w7", some 50⟩] ∧
      (gappedWeeksInput.map (fun r => r.week)).dedup = [1, 2, 3, 4, 5, 6, 9] := by decide

/-- C10 (amended): in both metric branches, `prep_data_stats` returns a
result only when the records reaching the pivot (after the kick-off time
filter, respectively the whole windowed table) carry exactly seven distinct
week values; otherwise the column assignment raises. -/
theorem c10_seven_week_columns :
    (∀ (df : List WindowedRecord) (kickoff : Int) (norm : Bool) (out : List LongRow),
      prep_data_stats df kickoff norm "kick-off" = PyResult.ok out →
      ((kickFiltered df kickoff).map (fun r => r.week)).dedup.length = 7) ∧
    (∀ (df : List WindowedRecord) (kickoff : Int) (norm : Bool) (out : List LongRow),
      prep_data_stats df kickoff norm "auc" = PyResult.ok out →
      ((df.map toTimeRecord).map (fun r => r.week)).dedup.length = 7) := by
  constructor
  · intro df kickoff norm out h
    rw [prep_data_stats_kick] at h
    split at h
    · exact absurd h (by simp)
    · split at h
      · exact absurd h (by simp)
      · rename_i t ht
        simp only [kickPivot] at ht
        split at ht
        · split at ht
          · rename_i hlen
            simp only [sortedDistinct] at hlen
            rw [List.length_insertionSort] at hlen
            exact hlen
          · exact absurd ht (by simp)
        · exact absurd ht (by simp)
  · intro df kickoff norm out h
    rw [prep_data_stats_auc] at h
    split at h
    · exact absurd h (by simp)
    · rename_i m hm
      simp only [aucLongRows] at hm
      split at hm
      · exact absurd hm (by simp)
      · rename_i t ht
        simp only [aucPivot] at ht
        split at ht
        · split at ht
          · rename_i hlen
            simp only [sortedDistinct] at hlen
            rw [List.length_insertionSort] at hlen
            exact hlen
          · exact absurd ht (by simp)
        · exact absurd ht (by simp)

/-- C10 (witness): the amended theorem's kick-off half instantiated at the
seven-week hourly input. -/
theorem c10_witness :
    ((kickFiltered hourlyConstInput 20).map (fun r => r.week)).dedup.length = 7 :=
  c10_seven_week_columns.1 hourlyConstInput 20 false
    [⟨"England", "gymA", "w1-6", some 50⟩, ⟨"England", "gymA", "w7", some 50⟩] (by decide)

/-- C5 (counterexample): with normalisation on, an all-zero England gym
makes the England baseline zero, so the normalised England `w1-6` values
are 0/0 and their mean is not 1; a Wales gym is absent from the baseline
map, so its normalised mean is missing rather than 1.  (In float
arithmetic the 0/0 is `NaN`; in the exact embedding it is 0 — both differ
from the claimed 1.0 beyond any tolerance.) -/
theorem c5_counterexample :
    countryMeanW16K (normalizeKick zeroBaselineTable) "England" = some 0 ∧
      countryMeanW16K (normalizeKick zeroBaselineTable) "Wales" = none := by decide

/-- C5 (amended): in both metric branches, if `c` is one of the two
baseline countries and its pre-normalisation `w1-6` mean is a present,
nonzero value, then after normalisation the mean of that country's `w1-6`
values equals exactly 1. -/
theorem c5_normalized_mean_one :
    (∀ (t : List KickSel) (c : String) (b : ℚ), (c = "England" ∨ c = "Scotland") →
      countryMeanW16K t c = some b → b ≠ 0 →
      countryMeanW16K (normalizeKick t) c = some 1) ∧
    (∀ (t : List AucSel) (c : String) (b : ℚ), (c = "England" ∨ c = "Scotland") →
      countryMeanW16A t c = some b → b ≠ 0 →
      countryMeanW16A (normalizeAuc t) c = some 1) := by
  constructor
  · intro t c b hc hb hb0
    simp only [countryMeanW16K, normalizeKick] at *
    rw [filter_pred_map (normKickRow _ _) (fun r => r.country == c) (fun r => rfl) t]
    rw [List.map_map]
    simp only [Function.comp_def, normKickRow]
    rw [List.map_congr_left (g := fun r => odiv r.w16 (some b)) ?_]
    · rw [show (fun (r : KickSel) => odiv r.w16 (some b)) =
          ((fun o => odiv o (some b)) ∘ (fun r => r.w16)) from rfl]
      rw [← List.map_map, meanOpt_map_odiv, hb]
      simp [div_self hb0]
    · intro r hr
      have hxc : r.country = c := eq_of_beq (List.mem_filter.mp hr).2
      rcases hc with rfl | rfl
      · rw [hxc,
          show baselineMap
            (meanOpt ((t.filter (fun r => r.country == "England")).map (fun r => r.w16)))
            (meanOpt ((t.filter (fun r => r.country == "Scotland")).map (fun r => r.w16)))
            "England" =
            meanOpt ((t.filter (fun r => r.country == "England")).map (fun r => r.w16))
            from rfl, hb]
      · rw [hxc,
          show baselineMap
            (meanOpt ((t.filter (fun r => r.country == "England")).map (fun r => r.w16)))
            (meanOpt ((t.filter (fun r => r.country == "Scotland")).map (fun r => r.w16)))
            "Scotland" =
            meanOpt ((t.filter (fun r => r.country == "Scotland")).map (fun r => r.w16))
            from rfl, hb]
  · intro t c b hc hb hb0
    simp only [countryMeanW16A, normalizeAuc] at *
    rw [filter_pred_map (normAucRow _ _) (fun r => r.country == c) (fun r => rfl) t]
    rw [List.map_map]
    simp only [Function.comp_def, normAucRow]
    rw [List.map_congr_left (g := fun r => odiv r.w16 (some b)) ?_]
    · rw [show (fun (r : AucSel) => odiv r.w16 (some b)) =
          ((fun o => odiv o (some b)) ∘ (fun r => r.w16)) from rfl]
      rw [← List.map_map, meanOpt_map_odiv, hb]
      simp [div_self hb0]
    · intro r hr
      have hxc : r.country = c := eq_of_beq (List.mem_filter.mp hr).2
      rcases hc with rfl | rfl
      · rw [hxc,
          show baselineMap
            (meanOpt ((t.filter (fun r => r.country == "England")).map (fun r => r.w16)))
            (meanOpt ((t.filter (fun r => r.country == "Scotland")).map (fun r => r.w16)))
            "England" =
            meanOpt ((t.filter (fun r => r.country == "England")).map (fun r => r.w16))
            from rfl, hb]
      · rw [hxc,
          show baselineMap
            (meanOpt ((t.filter (fun r => r.country == "England")).map (fun r => r.w16)))
            (meanOpt ((t.filter (fun r => r.country == "Scotland")).map (fun r => r.w16)))
            "Scotland" =
            meanOpt ((t.filter (fun r => r.country == "Scotland")).map (fun r => r.w16))
            from rfl, hb]

/-- C5 (witness): the amended theorem's kick-off half instantiated at two
England gyms with baselines 40 and 60 (country mean 50). -/
theorem c5_witness :
    countryMeanW16K (normalizeKick
      [⟨"England", "gymA", some 40, some 40⟩, ⟨"England", "gymB", some 60, some 60⟩])
      "England" = some 1 :=
  c5_normalized_mean_one.1
    [⟨"England", "gymA", some 40, some 40⟩, ⟨"England", "gymB", some 60, some 60⟩]
    "England" 50 (Or.inl rfl) (by decide) (by norm_num)

/-- C6 (counterexample): an AUC run where every (country, gym, week-label)
group holds a single time-of-day sample returns AUC value 0 for both
groups instead of failing with an InsufficientData error. -/
theorem c6_counterexample :
    prep_data_stats singleTimeInput 20 false "auc" =
      PyResult.ok [⟨"England", "gymA", "w1-6", some 0⟩,
        ⟨"England", "gymA", "w7", some 0⟩] := by decide

/-- C6 (amended): in the AUC branch, a group with a single time-of-day
sample does not fail: the Simpson integration returns 0 for it, and the
corresponding output row of `prep_data_stats` carries the value 0. -/
theorem c6_single_sample_auc_zero (df : List WindowedRecord) (norm : Bool)
    (m : List AucLong) (hm : aucLongRows df norm = Except.ok m) (kickoff : Int)
    (out : List LongRow) (h : prep_data_stats df kickoff norm "auc" = PyResult.ok out)
    (r : LongRow) (hr : r ∈ out)
    (hg : (aucGroup m r.country r.gym r.week).length = 1) : r.value = some 0 := by
  rw [prep_data_stats_auc] at h
  split at h
  · exact absurd h (by simp)
  · rename_i m' hm'
    rw [hm] at hm'
    obtain rfl : m = m' := Except.ok.inj hm'
    obtain rfl : sortRows (aucApply m) = out := PyResult.ok.inj h
    have hr' : r ∈ aucApply m :=
      (List.Perm.mem_iff (List.perm_insertionSort rowLe (aucApply m))).mp hr
    obtain ⟨k, hk, rfl⟩ := List.mem_map.mp hr'
    exact auc_singleton _ hg

/-- C6 (witness): the amended theorem instantiated at the concrete
one-sample-per-week input. -/
theorem c6_witness :
    (⟨"England", "gymA", "w1-6", some 0⟩ : LongRow).value = some 0 := by
  have hmel : aucLongRows singleTimeInput false =
      Except.ok [⟨"England", "gymA", 1200, "w1-6", some 50⟩,
        ⟨"England", "gymA", 1200, "w7", some 50⟩] := by decide
  exact c6_single_sample_auc_zero singleTimeInput false _ hmel 20
    [⟨"England", "gymA", "w1-6", some 0⟩, ⟨"England", "gymA", "w7", some 0⟩]
    (by decide) _ (by decide) (by decide)

/-- C8 (counterexample): with normalisation requested and a record whose
country is `"Wales"`, the aggregator returns a normal result in which the
Wales values have silently become missing, instead of rejecting the input
with an UnknownCountry error. -/
theorem c8_counterexample :
    prep_data_stats walesInput 20 true "kick-off" =
      PyResult.ok [⟨"England", "gymA", "w1-6", some 1⟩, ⟨"Wales", "gymW", "w1-6", none⟩,
        ⟨"England", "gymA", "w7", some 1⟩, ⟨"Wales", "gymW", "w7", none⟩] := by decide

/-- C8 (amended): in both metric branches, a row whose country is outside
{"England", "Scotland"} is not rejected: normalisation maps its `w1-6` and
`w7` values to missing (the baseline map yields `NaN`), and the row stays
in the table. -/
theorem c8_unknown_country_missing :
    (∀ (t : List KickSel) (r : KickSel), r ∈ t → r.country ≠ "England" →
      r.country ≠ "Scotland" →
      (⟨r.country, r.gym, none, none⟩ : KickSel) ∈ normalizeKick t) ∧
    (∀ (t : List AucSel) (r : AucSel), r ∈ t → r.country ≠ "England" →
      r.country ≠ "Scotland" →
      (⟨r.country, r.gym, r.time, none, none⟩ : AucSel) ∈ normalizeAuc t) := by
  constructor
  · intro t r hr h1 h2
    have e1 : (r.country == "England") = false := beq_eq_false_iff_ne.mpr h1
    have e2 : (r.country == "Scotland") = false := beq_eq_false_iff_ne.mpr h2
    have hrow : normKickRow (countryMeanW16K t "England") (countryMeanW16K t "Scotland") r =
        ⟨r.country, r.gym, none, none⟩ := by
      simp [normKickRow, baselineMap, e1, e2, odiv_none]
    exact hrow ▸ List.mem_map_of_mem _ hr
  · intro t r hr h1 h2
    have e1 : (r.country == "England") = false := beq_eq_false_iff_ne.mpr h1
    have e2 : (r.country == "Scotland") = false := beq_eq_false_iff_ne.mpr h2
    have hrow : normAucRow (countryMeanW16A t "England") (countryMeanW16A t "Scotland") r =
        ⟨r.country, r.gym, r.time, none, none⟩ := by
      simp [normAucRow, baselineMap, e1, e2, odiv_none]
    exact hrow ▸ List.mem_map_of_mem _ hr

/-- C8 (witness): the amended theorem's kick-off half instantiated at a
one-row Wales table. -/
theorem c8_witness :
    (⟨"Wales", "gymW", none, none⟩ : KickSel) ∈
      normalizeKick [⟨"Wales", "gymW", some 50, some 50⟩] :=
  c8_unknown_country_missing.1 [⟨"Wales", "gymW", some 50, some 50⟩]
    ⟨"Wales", "gymW", some 50, some 50⟩ (List.mem_singleton_self _) (by decide) (by decide)

/-- C9: whenever the AUC branch returns a result, consecutive output rows
are ordered by week label first and gym identifier second (in code-point
lexicographic order): for every earlier row `a` and later row `b`, `b`'s
week is not strictly below `a`'s, and on equal weeks `b`'s gym is not
strictly below `a`'s.  The pipeline is a pure function, so the order is
reproducible for identical inputs. -/
theorem c9_auc_output_sorted (df : List WindowedRecord) (kickoff : Int) (norm : Bool)
    (out : List LongRow) (h : prep_data_stats df kickoff norm "auc" = PyResult.ok out) :
    out.Pairwise (fun a b => strLt b.week a.week = false ∧
      (b.week = a.week → strLt b.gym a.gym = false)) := by
  rw [prep_data_stats_auc] at h
  split at h
  · exact absurd h (by simp)
  · rename_i m hm
    obtain rfl : sortRows (aucApply m) = out := PyResult.ok.inj h
    have hs : List.Sorted rowLe (sortRows (aucApply m)) :=
      List.sorted_insertionSort rowLe (aucApply m)
    refine hs.imp ?_
    intro a b hab
    have hab' : rowLt b a = false := hab
    simp only [rowLt, Bool.or_eq_false_iff] at hab'
    obtain ⟨h1, h2⟩ := hab'
    refine ⟨h1, fun he => ?_⟩
    simp only [he, beq_self_eq_true, Bool.true_and] at h2
    exact h2

/-- C9 (witness): the theorem instantiated at a concrete two-sample AUC
run. -/
theorem c9_witness :
    ([⟨"England", "gymA", "w1-6", some 50⟩, ⟨"England", "gymA", "w7", some 50⟩] :
        List LongRow).Pairwise (fun a b => strLt b.week a.week = false ∧
      (b.week = a.week → strLt b.gym a.gym = false)) :=
  c9_auc_output_sorted twoTimesInput 20 false
    [⟨"England", "gymA", "w1-6", some 50⟩, ⟨"England", "gymA", "w7", some 50⟩] (by decide)

end ClaimTheorems

end GymOccupancy
